import Mathlib

/-!
Shallow embedding of the halo2 `IsZero` gadget from
`src/halo2-examples/src/is_zero.rs`, together with theorems checking the
specification's claims about it.

The embedding mirrors the source:
* `Expression` is the symbolic polynomial-expression type queried by gates
  (the fragment of halo2's `Expression<F>` the gadget uses: constants,
  selector queries, advice queries, negation, sum, product);
* `ConstraintSystem.create_gate` appends a named gate (a list of
  expressions, each required to evaluate to zero on every active row);
* `IsZeroChip.configure` is the gate configurator, `IsZeroChip.assign` the
  witness assigner;
* `Value` is halo2's known/unknown witness container, `Region` a model of
  the row range being filled (an association list of cells plus a row
  capacity; a write past the capacity fails, as the collaborator's write
  can).
-/

namespace Halo2

/-- Index of an advice column, as in halo2's `Column<Advice>`. -/
abbrev Column := Nat

/-- Relative row offset of a query, as in halo2's `Rotation(i32)`. -/
structure Rotation where
  offset : Int
deriving DecidableEq, Repr

/-- `Rotation::cur()`: the current row. -/
def Rotation.cur : Rotation := ⟨0⟩

/-- The fragment of halo2's `Expression<F>` used by the gadget. -/
inductive Expression (F : Type) where
  | Constant : F → Expression F
  | Selector : Nat → Expression F
  | Advice : Column → Rotation → Expression F
  | Negated : Expression F → Expression F
  | Sum : Expression F → Expression F → Expression F
  | Product : Expression F → Expression F → Expression F
deriving DecidableEq, Repr

/-- Rust's `impl Mul for Expression` builds a `Product` node. -/
instance {F : Type} : Mul (Expression F) := ⟨Expression.Product⟩

/-- Rust's `impl Sub for Expression` builds `Sum(lhs, Negated(rhs))`. -/
instance {F : Type} : Sub (Expression F) := ⟨fun a b => Expression.Sum a (Expression.Negated b)⟩

/-- Evaluate an expression at one row, given the values the constraint
system would substitute for selector and advice queries at that row. -/
def Expression.eval {F : Type} [Field F] (sel : Nat → F) (adv : Column → Int → F) :
    Expression F → F
  | .Constant c => c
  | .Selector s => sel s
  | .Advice c r => adv c r.offset
  | .Negated e => - e.eval sel adv
  | .Sum a b => a.eval sel adv + b.eval sel adv
  | .Product a b => a.eval sel adv * b.eval sel adv

/-- A named gate: every polynomial in `polys` must evaluate to zero on
every row (halo2's `create_gate` argument after the closure has run). -/
structure Gate (F : Type) where
  name : String
  polys : List (Expression F)
deriving DecidableEq

/-- The mutable constraint-system builder: the list of gates registered so
far. -/
structure ConstraintSystem (F : Type) where
  gates : List (Gate F)
deriving DecidableEq

/-- The query context handed to the configuration closures (halo2's
`VirtualCells`; in this shallow model queries build expression nodes
directly, so the context carries no state). -/
structure VirtualCells (F : Type) where

/-- `meta.query_advice(column, at)`. -/
def VirtualCells.query_advice {F : Type} (_ : VirtualCells F) (column : Column)
    (at_ : Rotation) : Expression F :=
  Expression.Advice column at_

/-- `meta.query_selector(selector)`. -/
def VirtualCells.query_selector {F : Type} (_ : VirtualCells F) (selector : Nat) :
    Expression F :=
  Expression.Selector selector

/-- `meta.create_gate(name, constraints)`: invoke the closure once against
a query context and append the resulting gate. -/
def ConstraintSystem.create_gate {F : Type} (meta : ConstraintSystem F) (name : String)
    (constraints : VirtualCells F → List (Expression F)) : ConstraintSystem F :=
  { meta with gates := meta.gates ++ [{ name := name, polys := constraints ⟨⟩ }] }

/-- `IsZeroConfig<F>` from the source: the advice column holding the
inverse and the derived indicator expression. -/
structure IsZeroConfig (F : Type) where
  value_inv : Column
  is_zero_expr : Expression F
deriving DecidableEq

/-- `IsZeroConfig::expr`. -/
def IsZeroConfig.expr {F : Type} (self : IsZeroConfig F) : Expression F :=
  self.is_zero_expr

/-- `IsZeroChip<F>`. -/
structure IsZeroChip (F : Type) where
  config : IsZeroConfig F

/-- `IsZeroChip::construct`. -/
def IsZeroChip.construct {F : Type} (config : IsZeroConfig F) : IsZeroChip F :=
  { config := config }

/-- `IsZeroChip::configure`.  In the source `is_zero_expr` starts as
`Expression::Constant(F::zero())` and is overwritten inside the gate
closure, which `create_gate` invokes exactly once before `configure`
returns; the returned config therefore holds the overwritten expression.
The shallow embedding runs the same steps in order: query the closures,
query `value_inv` at the current rotation, build
`1 - value * value_inv`, register `q_enable * value * is_zero_expr` under
the name `"is_zero"`, and return the pair. -/
def IsZeroChip.configure {F : Type} [Field F] (meta : ConstraintSystem F)
    (q_enable : VirtualCells F → Expression F)
    (value : VirtualCells F → Expression F)
    (value_inv : Column) : ConstraintSystem F × IsZeroConfig F :=
  let vc : VirtualCells F := ⟨⟩
  let value_e := value vc
  let q_enable_e := q_enable vc
  let value_inv_e := vc.query_advice value_inv Rotation.cur
  let is_zero_expr := Expression.Constant (1 : F) - value_e * value_inv_e
  let meta' := meta.create_gate "is_zero"
    (fun _ => [q_enable_e * value_e * is_zero_expr])
  (meta', { value_inv := value_inv, is_zero_expr := is_zero_expr })

/-- halo2's `Value<F>`: unknown during shape analysis, known during
witness generation. -/
inductive Value (F : Type) where
  | unknown : Value F
  | known : F → Value F
deriving DecidableEq, Repr

/-- `Value::map`: apply `f` to a known value, propagate unknown. -/
def Value.map {F : Type} (f : F → F) : Value F → Value F
  | .unknown => .unknown
  | .known x => .known (f x)

/-- `Field::invert`, returning its `CtOption` as an `Option`: `none`
exactly when the element is zero. -/
def invert {F : Type} [Field F] [DecidableEq F] (v : F) : Option F :=
  if v = 0 then none else some v⁻¹

/-- The errors the region-write collaborator can raise (a fragment of
halo2's `Error`). -/
inductive Error where
  | NotEnoughRowsAvailable : Error
  | Synthesis : Error
deriving DecidableEq, Repr

/-- A model of halo2's `Region<'_, F>`: the allocated row capacity and the
cells written so far, newest first, keyed by (column, row offset). -/
structure Region (F : Type) where
  rows : Nat
  cells : List ((Column × Nat) × Value F)
deriving DecidableEq

/-- `region.assign_advice(annotation, column, offset, to)`: fail when the
offset falls outside the allocated region, otherwise overwrite the cell. -/
def Region.assign_advice {F : Type} [DecidableEq F] (region : Region F)
    (column : Column) (offset : Nat) (to_ : Value F) : Except Error (Region F) :=
  if offset < region.rows then
    Except.ok { region with
      cells := ((column, offset), to_) ::
        region.cells.filter (fun kv => decide (kv.1 ≠ (column, offset))) }
  else
    Except.error Error.NotEnoughRowsAvailable

/-- The value currently held by a cell, if any. -/
def Region.cellValue {F : Type} (region : Region F) (column : Column) (offset : Nat) :
    Option (Value F) :=
  (region.cells.find? (fun kv => decide (kv.1 = (column, offset)))).map Prod.snd

/-- `IsZeroChip::assign`: compute
`value.map(|value| value.invert().unwrap_or(F::zero()))` and write it into
the configured `value_inv` column at `offset`, propagating the
collaborator's error through `?`.  The Rust method mutates `region` and
returns `Result<(), Error>`; the embedding passes the region state
explicitly and returns it on success. -/
def IsZeroChip.assign {F : Type} [Field F] [DecidableEq F] (self : IsZeroChip F)
    (region : Region F) (offset : Nat) (value : Value F) : Except Error (Region F) :=
  let value_inv := value.map (fun value => (invert value).getD 0)
  match region.assign_advice self.config.value_inv offset value_inv with
  | .ok region' => .ok region'
  | .error e => .error e

/-- `TestCircuit::configure` from the source, the instantiation the tests
run: `advice` is column 0, the selector is selector 0, `value_inv` is
column 1, and the gadget is configured with `q_enable` querying the
selector and `value` querying `advice` at the current rotation. -/
def testConfigure (F : Type) [Field F] : ConstraintSystem F × IsZeroConfig F :=
  IsZeroChip.configure { gates := [] }
    (fun vc => vc.query_selector 0)
    (fun vc => vc.query_advice 0 Rotation.cur)
    1

/-- Selector assignment for one row: every selector query reads `e`. -/
def rowSel {F : Type} (e : F) : Nat → F := fun _ => e

/-- Advice assignment for one row of the test instantiation: column 0
(the value column) reads `v`, every other column (in particular column 1,
the helper column) reads `h`. -/
def rowAdv {F : Type} (v h : F) : Column → Int → F :=
  fun c _ => if c = 0 then v else h

/-- A row satisfies the constraint system when every polynomial of every
registered gate evaluates to zero there. -/
def ConstraintSystem.rowHolds {F : Type} [Field F] (cs : ConstraintSystem F)
    (sel : Nat → F) (adv : Column → Int → F) : Prop :=
  ∀ g ∈ cs.gates, ∀ p ∈ g.polys, p.eval sel adv = 0

instance {F : Type} [Field F] [DecidableEq F] (cs : ConstraintSystem F)
    (sel : Nat → F) (adv : Column → Int → F) : Decidable (cs.rowHolds sel adv) :=
  inferInstanceAs (Decidable (∀ g ∈ cs.gates, ∀ p ∈ g.polys, p.eval sel adv = 0))

/-- The one polynomial the gadget registers in the test instantiation,
written out as a constructor tree. -/
def testPoly (F : Type) [Field F] : Expression F :=
  Expression.Product
    (Expression.Product (Expression.Selector 0) (Expression.Advice 0 Rotation.cur))
    (Expression.Sum (Expression.Constant 1)
      (Expression.Negated
        (Expression.Product (Expression.Advice 0 Rotation.cur)
          (Expression.Advice 1 Rotation.cur))))

instance : Fact (Nat.Prime 5) := ⟨by norm_num⟩

/-- Concrete chip over `ZMod 5` built from the test instantiation's
configuration, for evaluating the theorems on explicit inputs. -/
def wChip : IsZeroChip (ZMod 5) := IsZeroChip.construct (testConfigure (ZMod 5)).2

/-- An empty four-row region over `ZMod 5`. -/
def wRegion : Region (ZMod 5) := ⟨4, []⟩

/-- `wRegion` after the gadget assigns the helper for the value `0`. -/
def wRegionZero : Region (ZMod 5) := ⟨4, [((1, 0), Value.known 0)]⟩

/-- `wRegion` after the gadget assigns the helper for an unknown value. -/
def wRegionUnknown : Region (ZMod 5) := ⟨4, [((1, 0), Value.unknown)]⟩

/-- A four-row region holding an unrelated cell in column 0. -/
def wRegionB : Region (ZMod 5) := ⟨4, [((0, 0), Value.known 2)]⟩

/-- `wRegionB` after the gadget assigns the helper for the value `0`. -/
def wRegionBAfter : Region (ZMod 5) :=
  ⟨4, [((1, 0), Value.known 0), ((0, 0), Value.known 2)]⟩

theorem testConfigure_gates_eq (F : Type) [Field F] :
    (testConfigure F).1.gates = [{ name := "is_zero", polys := [testPoly F] }] := rfl

theorem testConfigure_expr_eq (F : Type) [Field F] :
    (testConfigure F).2.is_zero_expr =
      Expression.Sum (Expression.Constant 1)
        (Expression.Negated
          (Expression.Product (Expression.Advice 0 Rotation.cur)
            (Expression.Advice 1 Rotation.cur))) := rfl

theorem testPoly_eval {F : Type} [Field F] (v h e : F) :
    (testPoly F).eval (rowSel e) (rowAdv v h) = e * v * (1 - v * h) := by
  have ha : rowAdv v h 0 Rotation.cur.offset = v := by simp [rowAdv]
  have hb : rowAdv v h 1 Rotation.cur.offset = h := by simp [rowAdv]
  simp only [testPoly, Expression.eval, rowSel, ha, hb]
  ring

theorem testExpr_eval {F : Type} [Field F] (v h e : F) :
    (testConfigure F).2.is_zero_expr.eval (rowSel e) (rowAdv v h) = 1 - v * h := by
  have ha : rowAdv v h 0 Rotation.cur.offset = v := by simp [rowAdv]
  have hb : rowAdv v h 1 Rotation.cur.offset = h := by simp [rowAdv]
  rw [testConfigure_expr_eq]
  simp only [Expression.eval, rowSel, ha, hb]
  ring

theorem testConfigure_rowHolds_iff {F : Type} [Field F] (sel : Nat → F)
    (adv : Column → Int → F) :
    (testConfigure F).1.rowHolds sel adv ↔ (testPoly F).eval sel adv = 0 := by
  simp [ConstraintSystem.rowHolds, testConfigure_gates_eq]

theorem Region.assign_advice_ok_elim {F : Type} [DecidableEq F] {region : Region F}
    {c : Column} {o : Nat} {t : Value F} {region' : Region F}
    (h : region.assign_advice c o t = .ok region') :
    o < region.rows ∧
      region' = { rows := region.rows,
                  cells := ((c, o), t) ::
                    region.cells.filter (fun kv => decide (kv.1 ≠ (c, o))) } := by
  unfold Region.assign_advice at h
  split at h
  · exact ⟨by assumption, by injection h with h; exact h.symm⟩
  · cases h

theorem Region.assign_advice_ok_of_lt {F : Type} [DecidableEq F] (region : Region F)
    (c : Column) (o : Nat) (t : Value F) (hlt : o < region.rows) :
    region.assign_advice c o t =
      .ok { rows := region.rows,
            cells := ((c, o), t) ::
              region.cells.filter (fun kv => decide (kv.1 ≠ (c, o))) } := by
  unfold Region.assign_advice
  rw [if_pos hlt]

/-- `find?` ignores a `filter` that never removes an entry the `find?`
predicate accepts. -/
theorem find_of_filter_compatible {α : Type} (p q : α → Bool)
    (hpq : ∀ a, q a = true → p a = true) :
    ∀ l : List α, (l.filter p).find? q = l.find? q := by
  intro l
  induction l with
  | nil => rfl
  | cons a l ih =>
    by_cases hp : p a = true
    · rw [List.filter_cons_of_pos hp]
      cases hq : q a
      · rw [List.find?_cons_of_neg _ (by simp [hq]), List.find?_cons_of_neg _ (by simp [hq]), ih]
      · rw [List.find?_cons_of_pos _ hq, List.find?_cons_of_pos _ hq]
    · have hq : q a = false := by
        cases hqa : q a
        · rfl
        · exact absurd (hpq a hqa) hp
      rw [List.filter_cons_of_neg (by simp [hp]), ih,
        List.find?_cons_of_neg _ (by simp [hq])]

theorem Region.cellValue_assign_same {F : Type} [DecidableEq F] {region : Region F}
    {c : Column} {o : Nat} {t : Value F} {region' : Region F}
    (h : region.assign_advice c o t = .ok region') :
    region'.cellValue c o = some t := by
  obtain ⟨-, rfl⟩ := Region.assign_advice_ok_elim h
  simp [Region.cellValue, List.find?_cons_of_pos]

theorem Region.cellValue_assign_other {F : Type} [DecidableEq F] {region : Region F}
    {c : Column} {o : Nat} {t : Value F} {region' : Region F} (c' : Column) (o' : Nat)
    (h : region.assign_advice c o t = .ok region') (hne : (c', o') ≠ (c, o)) :
    region'.cellValue c' o' = region.cellValue c' o' := by
  obtain ⟨-, rfl⟩ := Region.assign_advice_ok_elim h
  simp only [Region.cellValue]
  rw [List.find?_cons_of_neg _ (by simp; exact fun hc ho => hne (by rw [hc, ho]))]
  rw [find_of_filter_compatible _ _ (fun a ha => ?_)]
  have ha' : a.1 = (c', o') := of_decide_eq_true ha
  simp [ha', hne]

theorem Region.assign_advice_rows {F : Type} [DecidableEq F] {region : Region F}
    {c : Column} {o : Nat} {t : Value F} {region' : Region F}
    (h : region.assign_advice c o t = .ok region') :
    region'.rows = region.rows := by
  obtain ⟨-, rfl⟩ := Region.assign_advice_ok_elim h
  rfl

theorem Region.assign_advice_idem {F : Type} [DecidableEq F] {region : Region F}
    {c : Column} {o : Nat} {t : Value F} {region' : Region F}
    (h : region.assign_advice c o t = .ok region') :
    region'.assign_advice c o t = .ok region' := by
  obtain ⟨hlt, rfl⟩ := Region.assign_advice_ok_elim h
  unfold Region.assign_advice
  rw [if_pos hlt]
  congr 2
  rw [List.filter_cons_of_neg (by simp)]
  rw [List.filter_filter]
  simp

/-- `IsZeroChip.assign` is exactly the collaborator's region write of the
computed helper: the `?` operator adds nothing around it. -/
theorem assign_eq_assign_advice {F : Type} [Field F] [DecidableEq F]
    (chip : IsZeroChip F) (region : Region F) (offset : Nat) (value : Value F) :
    chip.assign region offset value =
      region.assign_advice chip.config.value_inv offset
        (value.map (fun value => (invert value).getD 0)) := by
  unfold IsZeroChip.assign
  cases hE : region.assign_advice chip.config.value_inv offset
      (value.map (fun value => (invert value).getD 0)) with
  | ok r => simp only [hE]
  | error e => simp only [hE]

/-- Claim C1: for every field element `v ≠ 0`, every helper `h ≠ v⁻¹` and
every enable value `e ≠ 0`, the single polynomial the configurator
registered evaluates to a non-zero field element on a row carrying
`value = v`, `helper = h`, `enable = e`, so the row violates the
registered identity and fails verification. -/
theorem is_zero_soundness {F : Type} [Field F] (v h e : F)
    (hv : v ≠ 0) (hh : h ≠ v⁻¹) (he : e ≠ 0) :
    (∀ g ∈ (testConfigure F).1.gates, ∀ p ∈ g.polys,
      p.eval (rowSel e) (rowAdv v h) ≠ 0) ∧
    ¬ (testConfigure F).1.rowHolds (rowSel e) (rowAdv v h) := by
  have key : e * v * (1 - v * h) ≠ 0 := by
    apply mul_ne_zero (mul_ne_zero he hv)
    rw [sub_ne_zero]
    intro h1
    apply hh
    apply mul_left_cancel₀ hv
    rw [← h1, mul_inv_cancel₀ hv]
  constructor
  · intro g hg p hp
    rw [testConfigure_gates_eq] at hg
    simp only [List.mem_singleton] at hg
    subst hg
    simp only [List.mem_singleton] at hp
    subst hp
    rw [testPoly_eval]
    exact key
  · rw [testConfigure_rowHolds_iff, testPoly_eval]
    exact key

/-- Witness for claim C1 at `v = 2`, `h = 0`, `e = 1` over `ZMod 5`. -/
theorem is_zero_soundness_witness :
    ((2 : ZMod 5) ≠ 0 ∧ (0 : ZMod 5) ≠ (2 : ZMod 5)⁻¹ ∧ (1 : ZMod 5) ≠ 0) ∧
    ¬ (testConfigure (ZMod 5)).1.rowHolds (rowSel 1) (rowAdv 2 0) :=
  ⟨⟨by decide, Ne.symm (inv_ne_zero (by decide)), by decide⟩,
    (is_zero_soundness (2 : ZMod 5) 0 1 (by decide)
      (Ne.symm (inv_ne_zero (by decide))) (by decide)).2⟩

/-- Claim C2: with the helper computed exactly as `assign` computes it,
the registered polynomial evaluates to `0` for every value and every
enable value, and the indicator expression evaluates to `1` when the value
is zero and to `0` otherwise — in particular it lies in `{0, 1}`. -/
theorem is_zero_completeness {F : Type} [Field F] [DecidableEq F] (v e : F) :
    (testConfigure F).1.rowHolds (rowSel e) (rowAdv v ((invert v).getD 0)) ∧
    (testConfigure F).2.is_zero_expr.eval (rowSel e) (rowAdv v ((invert v).getD 0))
      = (if v = 0 then 1 else 0) ∧
    ((testConfigure F).2.is_zero_expr.eval (rowSel e) (rowAdv v ((invert v).getD 0)) = 0 ∨
      (testConfigure F).2.is_zero_expr.eval (rowSel e) (rowAdv v ((invert v).getD 0)) = 1) := by
  have hind : (1 : F) - v * ((invert v).getD 0) = if v = 0 then 1 else 0 := by
    by_cases hv : v = 0
    · simp [invert, hv]
    · simp [invert, hv, mul_inv_cancel₀ hv]
  refine ⟨?_, ?_, ?_⟩
  · rw [testConfigure_rowHolds_iff, testPoly_eval, hind]
    by_cases hv : v = 0 <;> simp [hv]
  · rw [testExpr_eval, hind]
  · rw [testExpr_eval, hind]
    by_cases hv : v = 0 <;> simp [hv]

/-- Claim C3: for the value `0` and an arbitrary helper — including a
maliciously chosen one — the registered polynomial evaluates to `0` for
every enable value, and the indicator expression evaluates to `1`. -/
theorem is_zero_zero_value_case {F : Type} [Field F] (h e : F) :
    (testConfigure F).1.rowHolds (rowSel e) (rowAdv 0 h) ∧
    (testConfigure F).2.is_zero_expr.eval (rowSel e) (rowAdv 0 h) = 1 := by
  constructor
  · rw [testConfigure_rowHolds_iff, testPoly_eval]
    ring
  · rw [testExpr_eval]
    ring

/-- Claim C4: each invocation of `configure` appends exactly one gate to
the constraint system, named `"is_zero"`, holding the single polynomial
`enable_expr · value_expr · (1 − value_expr · helper_expr)`. -/
theorem configure_registers_one_gate {F : Type} [Field F]
    (meta : ConstraintSystem F)
    (q_enable : VirtualCells F → Expression F)
    (value : VirtualCells F → Expression F)
    (value_inv : Column) :
    (IsZeroChip.configure meta q_enable value value_inv).1.gates
      = meta.gates ++
        [{ name := "is_zero",
           polys := [q_enable ⟨⟩ * value ⟨⟩ *
             (Expression.Constant 1 -
               value ⟨⟩ * Expression.Advice value_inv Rotation.cur)] }] :=
  rfl

/-- Claim C5: the configuration `configure` returns carries
`is_zero_expr = 1 − value_expr · helper_expr` with the helper queried from
the supplied column at the current rotation — not the constant-zero
placeholder — and carries the caller's helper column. -/
theorem configure_config_shape {F : Type} [Field F]
    (meta : ConstraintSystem F)
    (q_enable : VirtualCells F → Expression F)
    (value : VirtualCells F → Expression F)
    (value_inv : Column) :
    (IsZeroChip.configure meta q_enable value value_inv).2.is_zero_expr
      = Expression.Constant 1 - value ⟨⟩ * Expression.Advice value_inv Rotation.cur ∧
    (IsZeroChip.configure meta q_enable value value_inv).2.is_zero_expr
      ≠ Expression.Constant 0 ∧
    (IsZeroChip.configure meta q_enable value value_inv).2.value_inv = value_inv := by
  refine ⟨rfl, ?_, rfl⟩
  intro hEq
  exact Expression.noConfusion hEq

/-- Claim C6: `assign` writes into the configured helper column at the
given offset exactly the helper the spec describes — the multiplicative
inverse when the value is known and non-zero, `0` when the value is known
and zero, and the unknown state when the value is unknown. -/
theorem assign_writes_inverse_helper {F : Type} [Field F] [DecidableEq F]
    (chip : IsZeroChip F) (region : Region F) (offset : Nat) (value : Value F)
    (region' : Region F)
    (hok : chip.assign region offset value = .ok region') :
    region'.cellValue chip.config.value_inv offset =
      some (match value with
            | .unknown => Value.unknown
            | .known x => Value.known (if x = 0 then 0 else x⁻¹)) := by
  rw [assign_eq_assign_advice] at hok
  rw [Region.cellValue_assign_same hok]
  congr 1
  cases value with
  | unknown => rfl
  | known x =>
    by_cases hx : x = 0 <;> simp [Value.map, invert, hx]

/-- Witness for claim C6: assigning the known value `0` over `ZMod 5`
writes the fallback helper `0`. -/
theorem assign_writes_inverse_helper_witness :
    Region.cellValue wRegionZero 1 0
      = some (Value.known (if (0 : ZMod 5) = 0 then 0 else (0 : ZMod 5)⁻¹)) :=
  assign_writes_inverse_helper wChip wRegion 0 (Value.known 0) wRegionZero (by rfl)

/-- Claim C7: the helper computation of `assign` is total over both
witness states: it maps the inversion-with-fallback only over known
values, sends the unknown state to the unknown state without any field
arithmetic, and sends the known value `0` to the known value `0`. -/
theorem assign_total_on_unknown {F : Type} [Field F] [DecidableEq F]
    (chip : IsZeroChip F) (region : Region F) (offset : Nat) :
    Value.map (fun v => (invert v).getD 0) (Value.unknown : Value F) = Value.unknown ∧
    Value.map (fun v => (invert v).getD 0) (Value.known (0 : F)) = Value.known 0 ∧
    (∀ region', chip.assign region offset Value.unknown = .ok region' →
      region'.cellValue chip.config.value_inv offset = some Value.unknown) := by
  refine ⟨rfl, by simp [Value.map, invert], ?_⟩
  intro region' hok
  rw [assign_eq_assign_advice] at hok
  exact Region.cellValue_assign_same hok

/-- Witness for claim C7: assigning an unknown value over `ZMod 5` writes
the unknown state. -/
theorem assign_total_on_unknown_witness :
    Region.cellValue wRegionUnknown 1 0 = some Value.unknown :=
  (assign_total_on_unknown wChip wRegion 0).2.2 wRegionUnknown (by rfl)

/-- Claim C8: `assign` succeeds exactly when the collaborator's region
write of the computed helper succeeds, and on failure it returns the
collaborator's error verbatim — no wrapping, no retry, no locally
generated error. -/
theorem assign_propagates_region_error {F : Type} [Field F] [DecidableEq F]
    (chip : IsZeroChip F) (region : Region F) (offset : Nat) (value : Value F) :
    (∀ region' : Region F,
      chip.assign region offset value = .ok region' ↔
        region.assign_advice chip.config.value_inv offset
          (value.map (fun v => (invert v).getD 0)) = .ok region') ∧
    (∀ e : Error,
      chip.assign region offset value = .error e ↔
        region.assign_advice chip.config.value_inv offset
          (value.map (fun v => (invert v).getD 0)) = .error e) := by
  refine ⟨fun region' => ?_, fun e => ?_⟩ <;> rw [assign_eq_assign_advice]

/-- Witness for claim C8 on the failing side: a write at offset `7` of a
four-row region fails, and `assign` reports exactly the collaborator's
`NotEnoughRowsAvailable`. -/
theorem assign_propagates_region_error_witness :
    wChip.assign wRegion 7 (Value.known 0) = .error Error.NotEnoughRowsAvailable ↔
      wRegion.assign_advice 1 7
        (Value.map (fun v => (invert v).getD 0) (Value.known (0 : ZMod 5)))
        = .error Error.NotEnoughRowsAvailable :=
  (assign_propagates_region_error wChip wRegion 7 (Value.known 0)).2
    Error.NotEnoughRowsAvailable

/-- Claim C9: `assign` is a single deterministic write: the helper cell it
produces is a function of the input value alone — any two successful calls
with the same value leave the same helper value in the written cell — and
repeating a successful call with the same arguments returns the region
unchanged. -/
theorem assign_deterministic_idempotent {F : Type} [Field F] [DecidableEq F]
    (chip : IsZeroChip F) (region : Region F) (offset : Nat) (value : Value F)
    (region' : Region F)
    (hok : chip.assign region offset value = .ok region') :
    chip.assign region' offset value = .ok region' ∧
    ∀ (region₂ region₂' : Region F) (offset₂ : Nat),
      chip.assign region₂ offset₂ value = .ok region₂' →
      region₂'.cellValue chip.config.value_inv offset₂
        = region'.cellValue chip.config.value_inv offset := by
  rw [assign_eq_assign_advice] at hok
  constructor
  · rw [assign_eq_assign_advice]
    exact Region.assign_advice_idem hok
  · intro region₂ region₂' offset₂ hok₂
    rw [assign_eq_assign_advice] at hok₂
    rw [Region.cellValue_assign_same hok₂, Region.cellValue_assign_same hok]

/-- Witness for claim C9: repeating the assignment of the known value `0`
over `ZMod 5` returns the once-assigned region unchanged. -/
theorem assign_deterministic_idempotent_witness :
    wChip.assign wRegionZero 0 (Value.known 0) = .ok wRegionZero :=
  (assign_deterministic_idempotent wChip wRegion 0 (Value.known 0) wRegionZero (by rfl)).1

/-- Claim C10: a successful `assign` changes only the configured helper
column at the given offset: the region keeps its row capacity and every
other cell keeps its value. -/
theorem assign_frame {F : Type} [Field F] [DecidableEq F]
    (chip : IsZeroChip F) (region : Region F) (offset : Nat) (value : Value F)
    (region' : Region F)
    (hok : chip.assign region offset value = .ok region') :
    region'.rows = region.rows ∧
    ∀ (c : Column) (o : Nat), (c, o) ≠ (chip.config.value_inv, offset) →
      region'.cellValue c o = region.cellValue c o := by
  rw [assign_eq_assign_advice] at hok
  exact ⟨Region.assign_advice_rows hok,
    fun c o hne => Region.cellValue_assign_other c o hok hne⟩

/-- Witness for claim C10: assigning into column 1 leaves the unrelated
cell in column 0 untouched. -/
theorem assign_frame_witness :
    Region.cellValue wRegionBAfter 0 0 = Region.cellValue wRegionB 0 0 :=
  (assign_frame wChip wRegionB 0 (Value.known 0) wRegionBAfter (by rfl)).2 0 0 (by decide)

end Halo2
